import Mathlib

/-!
# Verification of the cicdez stack converter / reconciler

A shallow embedding of the manifest→swarm-spec converter, the stack
reconciler/deployer, the content-addressed secret/config materializer and the
convergence waiter of the cicdez repository, together with theorems settling
the specification claims about them.

Modelling conventions:
* Go byte strings (`[]byte`, and Go `string` used as a byte container) are
  `List Nat` with each element < 256; `strBytes` reads a Lean `String` as its
  bytes (the repository only manipulates ASCII content, where code points and
  UTF-8 bytes agree).
* Go maps are association lists with Go's assignment semantics (later
  assignment to the same key overwrites); where Go ranges over a map and the
  result is sorted afterwards, the list order is canonicalized by the sort, so
  list order does not matter; where Go map iteration order would leak into the
  result, the embedding fixes list order and says so in a comment.
* The Docker cluster client is a deterministic fixture: a `ClusterState`
  record answers list/inspect queries, and create/update/remove calls are
  recorded as `DeployEvent`s and succeed (except prune removals, which carry
  an optional injected failure so error aggregation can be observed).
* 32-bit machine arithmetic is `Nat` reduced by `u32` (`% 2^32`).
-/

namespace Cicdez

/-- Bytes of a Lean string, one `Nat` per code point (ASCII contents only,
where this agrees with Go's UTF-8 bytes). -/
def strBytes (s : String) : List Nat := s.data.map Char.toNat

/-- Truncate to a 32-bit word, as Go's `uint32` arithmetic does. -/
def u32 (n : Nat) : Nat := n % 4294967296

/-- Right rotation of a 32-bit word. -/
def rotr32 (x n : Nat) : Nat := u32 ((x >>> n) ||| (x <<< (32 - n)))

/-- SHA-256 Σ₀. -/
def bigSigma0 (x : Nat) : Nat := (rotr32 x 2) ^^^ (rotr32 x 13) ^^^ (rotr32 x 22)

/-- SHA-256 Σ₁. -/
def bigSigma1 (x : Nat) : Nat := (rotr32 x 6) ^^^ (rotr32 x 11) ^^^ (rotr32 x 25)

/-- SHA-256 σ₀. -/
def smallSigma0 (x : Nat) : Nat := (rotr32 x 7) ^^^ (rotr32 x 18) ^^^ (x >>> 3)

/-- SHA-256 σ₁. -/
def smallSigma1 (x : Nat) : Nat := (rotr32 x 17) ^^^ (rotr32 x 19) ^^^ (x >>> 10)

/-- SHA-256 choice function; `^^^ 4294967295` is 32-bit complement. -/
def shaCh (x y z : Nat) : Nat := (x &&& y) ^^^ ((x ^^^ 4294967295) &&& z)

/-- SHA-256 majority function. -/
def shaMaj (x y z : Nat) : Nat := (x &&& y) ^^^ (x &&& z) ^^^ (y &&& z)

/-- The 64 SHA-256 round constants of FIPS 180-4 (fractional cube-root bits
of the first 64 primes), written in decimal. -/
def sha256K : List Nat :=
  [1116352408, 1899447441, 3049323471, 3921009573, 961987163,
   1508970993, 2453635748, 2870763221, 3624381080, 310598401,
   607225278, 1426881987, 1925078388, 2162078206, 2614888103,
   3248222580, 3835390401, 4022224774, 264347078, 604807628,
   770255983, 1249150122, 1555081692, 1996064986, 2554220882,
   2821834349, 2952996808, 3210313671, 3336571891, 3584528711,
   113926993, 338241895, 666307205, 773529912, 1294757372,
   1396182291, 1695183700, 1986661051, 2177026350, 2456956037,
   2730485921, 2820302411, 3259730800, 3345764771, 3516065817,
   3600352804, 4094571909, 275423344, 430227734, 506948616,
   659060556, 883997877, 958139571, 1322822218, 1537002063,
   1747873779, 1955562222, 2024104815, 2227730452, 2361852424,
   2428436474, 2756734187, 3204031479, 3329325298]

/-- The SHA-256 initial hash state of FIPS 180-4 (fractional square-root
bits of the first 8 primes), written in decimal. -/
def sha256H0 : List Nat :=
  [1779033703, 3144134277, 1013904242, 2773480762,
   1359893119, 2600822924, 528734635, 1541459225]

/-- Group bytes into big-endian 32-bit words. -/
def toWordsBE : List Nat → List Nat
  | a :: b :: c :: d :: rest => (a * 16777216 + b * 65536 + c * 256 + d) :: toWordsBE rest
  | _ => []

/-- SHA-256 padding: append `0x80`, zeros to 56 mod 64, then the bit length
as eight big-endian bytes. -/
def sha256Pad (msg : List Nat) : List Nat :=
  let len := msg.length
  let k := (119 - (len % 64)) % 64
  let bl := len * 8
  msg ++ [128] ++ List.replicate k 0 ++
    [(bl >>> 56) % 256, (bl >>> 48) % 256, (bl >>> 40) % 256, (bl >>> 32) % 256,
     (bl >>> 24) % 256, (bl >>> 16) % 256, (bl >>> 8) % 256, bl % 256]

/-- Split a (padded) byte list into 64-byte blocks. -/
def chunk64 (l : List Nat) : List (List Nat) :=
  (List.range ((l.length + 63) / 64)).map (fun i => (l.drop (64 * i)).take 64)

/-- Extend the 16 block words to the 64-entry message schedule. -/
def sha256Extend (w16 : List Nat) : List Nat :=
  (List.range 48).foldl
    (fun ws _ =>
      let n := ws.length
      ws ++ [u32 (smallSigma1 (ws.getD (n - 2) 0) + ws.getD (n - 7) 0 +
                  smallSigma0 (ws.getD (n - 15) 0) + ws.getD (n - 16) 0)])
    w16

/-- One SHA-256 compression round on the `[a,b,c,d,e,f,g,h]` state. -/
def sha256Round (st : List Nat) (k w : Nat) : List Nat :=
  match st with
  | [a, b, c, d, e, f, g, h] =>
    let t1 := h + bigSigma1 e + shaCh e f g + k + w
    let t2 := bigSigma0 a + shaMaj a b c
    [u32 (t1 + t2), a, b, c, u32 (d + t1), e, f, g]
  | l => l

/-- Compress one 64-byte block into the running hash state. -/
def sha256Block (h : List Nat) (block : List Nat) : List Nat :=
  let ws := sha256Extend (toWordsBE block)
  let st := (sha256K.zip ws).foldl (fun st kw => sha256Round st kw.1 kw.2) h
  h.zipWith (fun x y => u32 (x + y)) st

/-- SHA-256 digest of a byte sequence, as its 32 digest bytes: the embedding
of Go's `crypto/sha256.Sum256`. -/
def sha256 (msg : List Nat) : List Nat :=
  ((chunk64 (sha256Pad msg)).foldl sha256Block sha256H0).flatMap
    (fun w => [(w >>> 24) % 256, (w >>> 16) % 256, (w >>> 8) % 256, w % 256])

/-- Lowercase hex digit for a value below 16, as `encoding/hex` emits. -/
def hexDigitChar (n : Nat) : Char :=
  if n < 10 then Char.ofNat (48 + n) else Char.ofNat (87 + n)

/-- The two lowercase hex characters of one byte. -/
def byteHexChars (b : Nat) : List Char := [hexDigitChar (b / 16), hexDigitChar (b % 16)]

/-- The 64 lowercase hex characters of `sha256 msg`
(Go's `hex.EncodeToString(hash[:])`). -/
def sha256HexChars (msg : List Nat) : List Char := (sha256 msg).flatMap byteHexChars

/-- Embeds `hashedName` (internal/docker): the content-addressed resource name
`<name>_<first 8 hex chars of sha256(content)>`. -/
def hashedName (name : String) (content : List Nat) : String :=
  name ++ "_" ++ String.mk ((sha256HexChars content).take 8)

/-- Go-map lookup on an association list. -/
def lookupAssoc {α : Type} (l : List (String × α)) (k : String) : Option α :=
  (l.find? (fun p => p.1 == k)).map Prod.snd

/-- Go-map assignment on an association list: overwrite in place, else append. -/
def updateAssoc {α : Type} (l : List (String × α)) (k : String) (v : α) : List (String × α) :=
  if l.any (fun p => p.1 == k) then l.map (fun p => if p.1 == k then (k, v) else p)
  else l ++ [(k, v)]

/-- Embeds `sort.Strings`, modelled as an insertion sort by the string order
(bytewise for ASCII, as in Go). -/
def sortStrings (l : List String) : List String := List.insertionSort (· ≤ ·) l

/-! ## internal/vault: secret formatting (secrets.go) -/

/-- Embeds `vault.Secrets`: the decrypted flat secret store. -/
structure Secrets where
  values : List (String × String)
  deriving Repr

/-- Embeds `types.SensitiveSecret`: one `{source, rename}` pair of a sensitive rule set. -/
structure SensitiveSecret where
  source : String
  name : String
  deriving DecidableEq, Repr

def SecretOutputEnv : String := "env"
def SecretOutputJSON : String := "json"
def SecretOutputRaw : String := "raw"

/-- Embeds `vault.FormatEnv`: `KEY=VALUE\n` lines with keys sorted lexicographically.
The input models a Go map, so its keys are distinct. -/
def FormatEnv (secrets : List (String × String)) : List Nat :=
  (sortStrings (secrets.map Prod.fst)).flatMap
    (fun k => strBytes (k ++ "=" ++ ((lookupAssoc secrets k).getD "") ++ "\n"))

/-- One character of `encoding/json` string escaping (ASCII inputs);
Go's `Marshal` also HTML-escapes `<`, `>`, `&`. -/
def jsonEscapeChar (c : Char) : List Char :=
  if c = '"' then ['\\', '"']
  else if c = '\\' then ['\\', '\\']
  else if c = '\n' then ['\\', 'n']
  else if c = '\r' then ['\\', 'r']
  else if c = '\t' then ['\\', 't']
  else if c = '<' then '\\' :: "u003c".data
  else if c = '>' then '\\' :: "u003e".data
  else if c = '&' then '\\' :: "u0026".data
  else if c.toNat < 32 then '\\' :: 'u' :: '0' :: '0' :: byteHexChars c.toNat
  else [c]

/-- A JSON string literal for `s`. -/
def jsonString (s : String) : String :=
  String.mk ('"' :: (s.data.flatMap jsonEscapeChar ++ ['"']))

/-- Embeds `vault.FormatJSON`: `json.Marshal` of a flat string map — a JSON object
with keys in sorted order. -/
def FormatJSON (secrets : List (String × String)) : List Nat :=
  strBytes ("\x7b" ++
    String.intercalate ","
      ((sortStrings (secrets.map Prod.fst)).map
        (fun k => jsonString k ++ ":" ++ jsonString ((lookupAssoc secrets k).getD ""))) ++
    "\x7d")

/-- Embeds `vault.FormatRaw`: the value's bytes, unmodified. -/
def FormatRaw (value : String) : List Nat := strBytes value

/-- The picking loop of `vault.FormatSecretsForSensitive`: resolve each listed
secret in the store and assign it into the `picked` map under its output
(renamed) key. -/
def pickSecrets (allSecrets : Secrets) :
    List SensitiveSecret → List (String × String) → Except String (List (String × String))
  | [], acc => .ok acc
  | s :: rest, acc =>
    match lookupAssoc allSecrets.values s.source with
    | none => .error ("secret \"" ++ s.source ++ "\" not found in cicdez secrets")
    | some v =>
      pickSecrets allSecrets rest
        (updateAssoc acc (if s.name == "" then s.source else s.name) v)

/-- Embeds `vault.FormatSecretsForSensitive` (src/internal/vault/secrets.go). -/
def FormatSecretsForSensitive (allSecrets : Secrets) (needed : List SensitiveSecret)
    (format : String) : Except String (List Nat) :=
  if needed.length == 0 then .error "no secrets specified for sensitive config"
  else
    match pickSecrets allSecrets needed [] with
    | .error e => .error e
    | .ok picked =>
      if format == SecretOutputEnv || format == "" then .ok (FormatEnv picked)
      else if format == SecretOutputJSON then .ok (FormatJSON picked)
      else if format == SecretOutputRaw then
        if picked.length ≠ 1 then
          .error ("raw format requires exactly one secret, got " ++ toString picked.length)
        else
          match picked with
          | [(_, v)] => .ok (FormatRaw v)
          | _ => .error ("unknown format: " ++ format)
      else .error ("unknown format: " ++ format)

/-! ## Capability add/drop conversion (internal/docker) -/

def capPrefixChars : List Char := ['C', 'A', 'P', '_']

/-- ASCII whitespace, as `strings.TrimSpace` treats it. -/
def asciiSpace (c : Char) : Bool :=
  c = ' ' || c = '\t' || c = '\n' || c = '\r' || c = '\x0b' || c = '\x0c'

/-- Embeds `strings.TrimSpace` (ASCII inputs). -/
def trimSpace (s : String) : String :=
  String.mk (((s.data.dropWhile asciiSpace).reverse.dropWhile asciiSpace).reverse)

/-- Embeds `strings.ToUpper` (ASCII inputs). -/
def upperAscii (s : String) : String := String.mk (s.data.map Char.toUpper)

/-- One entry of `capabilitiesMap`: trim, upper-case, and `CAP_`-prefix
anything that is not the literal `ALL` and not already prefixed. -/
def capNormalize (c : String) : String :=
  let c' := upperAscii (trimSpace c)
  if c' == "ALL" || c'.data.take 4 == capPrefixChars then c'
  else String.mk (capPrefixChars ++ c'.data)

/-- Insert into a Go-map-as-set. -/
def capsInsert (l : List String) (c : String) : List String :=
  if l.contains c then l else l ++ [c]

/-- Embeds `capabilitiesMap`: the normalized capability set (a Go `map[string]bool`;
list order is insertion order, and every consumer sorts, so order is
immaterial). -/
def capabilitiesMap (caps : List String) : List String :=
  caps.foldl (fun l c => capsInsert l (capNormalize c)) []

/-- Embeds `effectiveCapAddCapDrop`: collapse `ALL`, drop from the drop set anything
also added, sort both. -/
def effectiveCapAddCapDrop (add drop : List String) : List String × List String :=
  let addCaps := capabilitiesMap add
  let dropCaps := capabilitiesMap drop
  let addCaps := if addCaps.contains "ALL" then ["ALL"] else addCaps
  let dropCaps := if dropCaps.contains "ALL" then ["ALL"] else dropCaps
  let capDrop := dropCaps.filter (fun c => !(addCaps.contains c))
  (sortStrings addCaps, sortStrings capDrop)

/-! ## Restart policy conversion (internal/docker) -/

def RestartPolicyConditionAny : String := "any"
def RestartPolicyConditionOnFailure : String := "on-failure"

/-- Embeds `swarm.RestartPolicy` (durations as nanosecond counts). -/
structure RestartPolicy where
  condition : String
  delay : Option Int := none
  maxAttempts : Option Nat := none
  window : Option Int := none
  deriving DecidableEq, Repr

/-- Embeds `types.RestartPolicy`: the structured deploy-section restart policy. -/
structure RestartPolicySource where
  condition : String
  delay : Option Int
  maxAttempts : Option Nat
  window : Option Int
  deriving DecidableEq, Repr

/-- Embeds `strings.Cut` at the first `':'`, on the character list. -/
def cutColonChars : List Char → Option (List Char × List Char)
  | [] => none
  | c :: rest =>
    if c = ':' then some ([], rest)
    else
      match cutColonChars rest with
      | some (a, b) => some (c :: a, b)
      | none => none

/-- Embeds `strings.Cut(s, ":")`: before, after, found. -/
def stringCut (s : String) : String × String × Bool :=
  match cutColonChars s.data with
  | some (a, b) => (String.mk a, String.mk b, true)
  | none => (s, "", false)

/-- Embeds `strconv.ParseUint(s, 10, 64)`: digits only, non-empty, below `2^64`. -/
def goParseUint (s : String) : Option Nat :=
  if s == "" then none
  else if s.data.all Char.isDigit then
    let v := s.data.foldl (fun acc c => acc * 10 + (c.toNat - 48)) 0
    if v < 18446744073709551616 then some v else none
  else none

/-- Embeds `convertRestartPolicy`: the structured policy when the deploy section has
one, else the legacy `condition[:max-attempts]` shorthand. -/
def convertRestartPolicy (restart : String) (source : Option RestartPolicySource) :
    Except String (Option RestartPolicy) :=
  match source with
  | none =>
    if restart == "" || restart == "no" then .ok none
    else
      let cut := stringCut restart
      let nm := cut.1
      let maxRetries := cut.2.1
      let attempts : Except String (Option Nat) :=
        if maxRetries == "" then .ok none
        else
          match goParseUint maxRetries with
          | some v => .ok (some v)
          | none => .error ("invalid restart policy: " ++ restart)
      match attempts with
      | .error e => .error e
      | .ok ma =>
        if nm == "always" || nm == "unless-stopped" then
          .ok (some { condition := RestartPolicyConditionAny })
        else if nm == "on-failure" then
          .ok (some { condition := RestartPolicyConditionOnFailure, maxAttempts := ma })
        else .error ("unknown restart policy: " ++ restart)
  | some src =>
    .ok (some { condition := src.condition, delay := src.delay,
                maxAttempts := src.maxAttempts, window := src.window })

/-! ## Names, labels, entity model (internal/docker) -/

def LabelNamespace : String := "com.docker.stack.namespace"
def LabelImage : String := "com.docker.stack.image"
def DefaultNetworkDriver : String := "overlay"

/-- Embeds `ScopeName`: the stack namespace prefix. -/
def ScopeName (stack name : String) : String := stack ++ "_" ++ name

/-- A manifest secret or config object (`types.SecretConfig` /
`types.ConfigObjConfig`): optional explicit name, external flag, and content
from a file or an inline literal. Content is a byte string. -/
structure FileObject where
  name : String := ""
  external : Bool := false
  file : String := ""
  content : List Nat := []
  deriving DecidableEq, Repr

/-- A service-level secret/config reference (`types.ServiceSecretConfig` /
`types.ServiceConfigObjConfig`); empty strings and `none` mean unset. -/
structure ServiceObjRef where
  source : String
  target : String := ""
  uid : String := ""
  gid : String := ""
  mode : Option Nat := none
  deriving DecidableEq, Repr

/-- Embeds `swarm.SecretReferenceFileTarget` / `ConfigReferenceFileTarget`. -/
structure RefFileTarget where
  name : String
  uid : String
  gid : String
  mode : Nat
  deriving DecidableEq, Repr

/-- Embeds `swarm.SecretReference`. -/
structure SecretReference where
  secretID : String
  secretName : String
  file : RefFileTarget
  deriving DecidableEq, Repr

/-- Embeds `swarm.ConfigReference`. -/
structure ConfigReference where
  configID : String
  configName : String
  file : RefFileTarget
  deriving DecidableEq, Repr

/-- The secret-reference loop body of `convertService`: resolve the referenced
secret, scope its name, look up its cluster ID, and apply the defaults
(target ← bare source name, uid/gid ← "0", mode ← 0444). `secretIDs` models
`SecretInspect` by name. -/
def convertSecretRef (stack : String) (secrets : List (String × FileObject))
    (secretIDs : List (String × String)) (ref : ServiceObjRef) :
    Except String SecretReference :=
  match lookupAssoc secrets ref.source with
  | none => .error ("secret " ++ ref.source ++ " not found")
  | some secret =>
    let secretName :=
      if secret.name ≠ "" then secret.name
      else if secret.external then ref.source
      else ScopeName stack ref.source
    match lookupAssoc secretIDs secretName with
    | none => .error ("secret " ++ secretName ++ ": secret not found: not found")
    | some sid =>
      let target := if ref.target == "" then ref.source else ref.target
      let mode := ref.mode.getD 0o444
      let uid := if ref.uid == "" then "0" else ref.uid
      let gid := if ref.gid == "" then "0" else ref.gid
      .ok { secretID := sid, secretName,
            file := { name := target, uid, gid, mode } }

/-- The config-reference loop body of `convertService`: as for secrets, but an
unset target defaults to `"/" ++ source`. -/
def convertConfigRef (stack : String) (configs : List (String × FileObject))
    (configIDs : List (String × String)) (ref : ServiceObjRef) :
    Except String ConfigReference :=
  match lookupAssoc configs ref.source with
  | none => .error ("config " ++ ref.source ++ " not found")
  | some config =>
    let configName :=
      if config.name ≠ "" then config.name
      else if config.external then ref.source
      else ScopeName stack ref.source
    match lookupAssoc configIDs configName with
    | none => .error ("config " ++ configName ++ ": config not found: not found")
    | some cid =>
      let target := if ref.target == "" then "/" ++ ref.source else ref.target
      let mode := ref.mode.getD 0o444
      let uid := if ref.uid == "" then "0" else ref.uid
      let gid := if ref.gid == "" then "0" else ref.gid
      .ok { configID := cid, configName,
            file := { name := target, uid, gid, mode } }

/-! ## Service specs and the service reconciler (internal/docker) -/

/-- A converted `swarm.ServiceSpec`, flattened to the fields the reconciler
reads or writes: the scoped name, the `LabelImage` label, the container
image, the task `ForceUpdate` counter, and the sorted secret/config
references; every other converted field is opaque to the reconciler and is
abstracted into `rest`. -/
structure ServiceSpecE where
  name : String
  labelImage : String
  image : String
  forceUpdate : Nat
  secretRefs : List SecretReference := []
  configRefs : List ConfigReference := []
  rest : String := ""
  deriving DecidableEq, Repr

/-- An existing `swarm.Service` as `ServiceList` reports it: ID, version
token, spec. `removeError` injects a `ServiceRemove` failure for this service
into the deterministic client fixture (`none` = removal succeeds). -/
structure ExistingService where
  id : String
  version : Nat
  spec : ServiceSpecE
  removeError : Option String := none
  deriving DecidableEq, Repr

/-- Embeds `client.ServiceUpdateOptions` as the reconciler fills it. -/
structure ServiceUpdateOpts where
  version : Nat
  queryRegistry : Bool
  spec : ServiceSpecE
  deriving DecidableEq, Repr

/-- One recorded mutating call against the cluster client. -/
inductive DeployEvent where
  | serviceRemove (id : String)
  | networkCreate (name : String) (driver : String)
  | secretUpdate (id : String) (version : Nat) (name : String)
  | secretCreate (name : String)
  | configUpdate (id : String) (version : Nat) (name : String)
  | configCreate (name : String)
  | serviceUpdate (id : String) (opts : ServiceUpdateOpts)
  | serviceCreate (spec : ServiceSpecE) (queryRegistry : Bool)
  deriving DecidableEq, Repr

def ResolveImageAlways : String := "always"
def ResolveImageChanged : String := "changed"
def ResolveImageNever : String := "never"

/-- The image-resolution switch of `deployServices` for an existing service:
returns the `QueryRegistry` flag and the image placed into the submitted
spec. `always` queries; `changed` queries iff the desired image differs from
the existing service's `LabelImage` label, else reuses the existing resolved
image; any other policy (including `never` and the empty default) never
queries and reuses the existing resolved image when the label matches. -/
def resolveImageOnUpdate (resolveImage image : String) (existingSpec : ServiceSpecE) :
    Bool × String :=
  if resolveImage == ResolveImageAlways then (true, image)
  else if resolveImage == ResolveImageChanged then
    if image ≠ existingSpec.labelImage then (true, image) else (false, existingSpec.image)
  else
    if image == existingSpec.labelImage then (false, existingSpec.image) else (false, image)

/-- The Go `existingServiceMap` lookup: the map is keyed by `spec.Name`, and a
later list entry overwrites an earlier one with the same name. -/
def lookupExistingService (existing : List ExistingService) (name : String) :
    Option ExistingService :=
  (existing.filter (fun s => s.spec.name == name)).getLast?

/-- Embeds `deployServices`: for each desired service (keyed by internal name; list
order stands in for Go's map iteration order), update the matching existing
service — carrying its version token and `ForceUpdate` counter and resolving
the image per policy — or create it. Returns the recorded calls and the
collected service IDs; the fixture client answers every call successfully,
with the scoped name standing in for a fresh create-response ID. -/
def deployServices (services : List (String × ServiceSpecE))
    (existing : List ExistingService) (stack resolveImage : String) :
    List DeployEvent × List String :=
  services.foldl
    (fun acc p =>
      let internalName := p.1
      let serviceSpec := p.2
      let name := ScopeName stack internalName
      let image := serviceSpec.image
      match lookupExistingService existing name with
      | some svc =>
        let qi := resolveImageOnUpdate resolveImage image svc.spec
        let spec' := { serviceSpec with image := qi.2, forceUpdate := svc.spec.forceUpdate }
        (acc.1 ++ [.serviceUpdate svc.id { version := svc.version, queryRegistry := qi.1, spec := spec' }],
         acc.2 ++ [svc.id])
      | none =>
        let query := resolveImage == ResolveImageAlways || resolveImage == ResolveImageChanged
        (acc.1 ++ [.serviceCreate serviceSpec query], acc.2 ++ [name]))
    ([], [])

/-- Number of `ServiceUpdate` calls in a recorded trace. -/
def countServiceUpdates (evs : List DeployEvent) : Nat :=
  (evs.filter (fun e => match e with | .serviceUpdate _ _ => true | _ => false)).length

/-- Embeds `pruneServices`: walk every existing service in the namespace; for each
one whose `spec.Name` is not in the desired set, issue a `ServiceRemove` call
and collect its failure (if any) instead of aborting. Returns the remove
calls and the collected failures (`errors.Join` of the list; `nil` iff
empty). -/
def pruneServices : List ExistingService → List String → List DeployEvent × List String
  | [], _ => ([], [])
  | svc :: rest, desired =>
    let acc := pruneServices rest desired
    if desired.contains svc.spec.name then acc
    else
      match svc.removeError with
      | none => (.serviceRemove svc.id :: acc.1, acc.2)
      | some e => (.serviceRemove svc.id :: acc.1, e :: acc.2)

/-! ## Networks (internal/docker) -/

/-- A manifest network (`types.NetworkConfig`): optional explicit name,
external flag, driver. -/
structure NetworkEnt where
  name : String := ""
  external : Bool := false
  driver : String := ""
  deriving DecidableEq, Repr

/-- Embeds `client.NetworkCreateOptions`, reduced to the driver field the
reconciler touches. -/
structure NetworkCreateOpts where
  driver : String
  deriving DecidableEq, Repr

/-- A `local_configs` manifest entry (`types.LocalConfig`). -/
structure LocalConfigEnt where
  source : String
  target : String := ""
  deriving DecidableEq, Repr

/-- A `sensitive` manifest entry (`types.SensitiveConfig`). -/
structure SensitiveConfig where
  target : String := ""
  format : String := ""
  template : String := ""
  secrets : List SensitiveSecret := []
  uid : String := ""
  gid : String := ""
  mode : Option Nat := none
  deriving DecidableEq, Repr

/-- A manifest service entity (`types.ServiceConfig`), reduced to the fields
the deployer reads; everything else is abstracted into `rest`. `secretRefs`
and `configs` are the service-level secret/config reference lists. -/
structure ServiceEnt where
  name : String
  image : String := ""
  networks : List String := []
  localConfigs : List (String × LocalConfigEnt) := []
  sensitive : List (String × SensitiveConfig) := []
  secretRefs : List ServiceObjRef := []
  configs : List ServiceObjRef := []
  rest : String := ""
  deriving DecidableEq, Repr

/-- Embeds `GetServicesDeclaredNetworks`: the set of network keys any service
declares, with `"default"` standing in for a service that declares none. -/
def GetServicesDeclaredNetworks (services : List ServiceEnt) : List String :=
  services.foldl
    (fun acc svc =>
      if svc.networks.length == 0 then capsInsert acc "default"
      else svc.networks.foldl capsInsert acc)
    []

/-- Embeds `ConvertNetworks`: of the declared networks that some service uses,
external ones contribute their effective name to the validation list and are
never created; internal ones get the scoped name (unless overridden) and the
default overlay driver when unset. -/
def ConvertNetworks (stack : String) (networks : List (String × NetworkEnt))
    (serviceNetworks : List String) :
    List (String × NetworkCreateOpts) × List String :=
  networks.foldl
    (fun acc p =>
      let name := p.1
      let net := p.2
      if !(serviceNetworks.contains name) then acc
      else if net.external then
        (acc.1, acc.2 ++ [if net.name == "" then name else net.name])
      else
        let netName := if net.name ≠ "" then net.name else ScopeName stack name
        let driver := if net.driver == "" then DefaultNetworkDriver else net.driver
        (updateAssoc acc.1 netName { driver }, acc.2))
    ([], [])

/-- Embeds `container.NetworkMode.IsUserDefined`: not default/bridge/host/none and
not a `container:` reference. -/
def isUserDefinedNetwork (name : String) : Bool :=
  !(name == "default" || name == "bridge" || name == "host" || name == "none" ||
    name.data.take 10 == "container:".data)

def networkNotFoundMsg (n : String) : String :=
  "network \"" ++ n ++ "\" is declared as external, but could not be found. " ++
    "You need to create a swarm-scoped network before the stack is deployed"

def networkScopeMsg (n scope : String) : String :=
  "network \"" ++ n ++ "\" is declared as external, but it is not in the right scope: \"" ++
    scope ++ "\" instead of \"swarm\""

/-- Embeds `validateExternalNetworks`: every user-defined external network must be
inspectable and report `swarm` scope; the first offender aborts with its
message. `clusterNets` models `NetworkInspect` (name ↦ scope). -/
def validateExternalNetworks (clusterNets : List (String × String)) :
    List String → Option String
  | [] => none
  | n :: rest =>
    if !(isUserDefinedNetwork n) then validateExternalNetworks clusterNets rest
    else
      match lookupAssoc clusterNets n with
      | none => some (networkNotFoundMsg n)
      | some scope =>
        if scope ≠ "swarm" then some (networkScopeMsg n scope)
        else validateExternalNetworks clusterNets rest

/-- A user-defined external network that is missing from the cluster or not
swarm-scoped. -/
def badExternalNetwork (clusterNets : List (String × String)) (n : String) : Bool :=
  isUserDefinedNetwork n &&
    (match lookupAssoc clusterNets n with
     | none => true
     | some scope => scope ≠ "swarm")

/-- The first offending external network of the declared list, if any. -/
def firstBadExternalNetwork (clusterNets : List (String × String)) :
    List String → Option String
  | [] => none
  | n :: rest =>
    if badExternalNetwork clusterNets n then some n
    else firstBadExternalNetwork clusterNets rest

/-- The error `validateExternalNetworks` raises for a bad network `n`. -/
def extNetworkErrMsg (clusterNets : List (String × String)) (n : String) : String :=
  match lookupAssoc clusterNets n with
  | none => networkNotFoundMsg n
  | some scope => networkScopeMsg n scope

/-! ## Content materializer (internal/docker) -/

/-- Embeds `filepath.IsAbs` on unix. -/
def isAbsPath (p : String) : Bool := p.data.take 1 == ['/']

/-- Embeds `filepath.Join` of a directory and a relative path (without the path
cleaning, which no claim depends on). -/
def joinPath (dir p : String) : String := dir ++ "/" ++ p

/-- The per-service loop of `processLocalConfigs`: read each local config
file (the filesystem is the `files` association), derive the
content-addressed name, record the generated config, and append a config
reference to the service. -/
def processLocalConfigsSvc (files : List (String × List Nat)) (cwd : String)
    (svc : ServiceEnt) (configs : List (String × FileObject)) :
    Except String (ServiceEnt × List (String × FileObject)) :=
  svc.localConfigs.foldlM
    (fun acc p =>
      let name := p.1
      let lc := p.2
      let sourcePath := if isAbsPath lc.source then lc.source else joinPath cwd lc.source
      match lookupAssoc files sourcePath with
      | none =>
        .error ("failed to read local config file " ++ lc.source ++ " for service " ++
                svc.name ++ ": file does not exist")
      | some content =>
        let configName := hashedName name content
        .ok ({ acc.1 with configs := acc.1.configs ++ [{ source := configName, target := lc.target }] },
             updateAssoc acc.2 configName { content := content }))
    (svc, configs)

/-- The manifest model the deployer works on (`types.Project`, reduced to the
fields it reads). Collections are association lists standing in for Go maps;
their order stands in for Go's map iteration order. -/
structure ProjectE where
  workingDir : String := ""
  services : List ServiceEnt := []
  networks : List (String × NetworkEnt) := []
  secrets : List (String × FileObject) := []
  configs : List (String × FileObject) := []
  deriving Repr

/-- Embeds `processLocalConfigs`: materialize every service's local-file configs
into content-addressed generated configs. -/
def processLocalConfigs (files : List (String × List Nat)) (project : ProjectE) :
    Except String ProjectE := do
  let res ← project.services.foldlM
    (fun (acc : List ServiceEnt × List (String × FileObject)) svc => do
      let r ← processLocalConfigsSvc files project.workingDir svc acc.2
      return (acc.1 ++ [r.1], r.2))
    ([], project.configs)
  return { project with services := res.1, configs := res.2 }

def SecretOutputTemplate : String := "template"

/-- Modelled from the spec: the two-argument `vault.FormatEnv` called by the
deployer's materializer is not under src/ (only its caller is); per the spec
it picks the `{source, rename}` pairs from the store and renders them as
sorted `KEY=VALUE` lines. -/
def vaultFormatEnvRules (allSecrets : Secrets) (needed : List SensitiveSecret) :
    Except String (List Nat) :=
  (pickSecrets allSecrets needed []).map FormatEnv

/-- Modelled from the spec: the two-argument `vault.FormatJSON` (not under
src/) picks the pairs and renders a flat JSON object. -/
def vaultFormatJSONRules (allSecrets : Secrets) (needed : List SensitiveSecret) :
    Except String (List Nat) :=
  (pickSecrets allSecrets needed []).map FormatJSON

/-- Modelled from the spec: the two-argument `vault.FormatRaw` (not under
src/) requires exactly one listed secret and writes its bytes unmodified. -/
def vaultFormatRawRules (allSecrets : Secrets) (needed : List SensitiveSecret) :
    Except String (List Nat) := do
  let picked ← pickSecrets allSecrets needed []
  match needed, picked with
  | [_], [(_, v)] => .ok (FormatRaw v)
  | _, _ => .error "raw format requires exactly one secret"

/-- Modelled from the spec: `vault.FormatTemplate` (not under src/) renders
the picked map into the template text using the renamed keys as template
variables. -/
def renderTemplate (picked : List (String × String)) (tmpl : List Nat) : List Nat :=
  strBytes
    (picked.foldl
      (fun acc kv => acc.replace ("\x7b\x7b." ++ kv.1 ++ "\x7d\x7d") kv.2)
      (String.mk (tmpl.map Char.ofNat)))

/-- Embeds `formatSensitiveSecrets` (the deployer's dispatcher): env/json/raw via
the vault formatters; `template` reads the template file relative to the
working directory first; an unknown format is fatal. -/
def formatSensitiveSecrets (allSecrets : Secrets) (files : List (String × List Nat))
    (sensitive : SensitiveConfig) (cwd : String) : Except String (List Nat) :=
  if sensitive.format == SecretOutputEnv || sensitive.format == "" then
    vaultFormatEnvRules allSecrets sensitive.secrets
  else if sensitive.format == SecretOutputJSON then
    vaultFormatJSONRules allSecrets sensitive.secrets
  else if sensitive.format == SecretOutputRaw then
    vaultFormatRawRules allSecrets sensitive.secrets
  else if sensitive.format == SecretOutputTemplate then
    if sensitive.template == "" then .error "template format requires template path"
    else
      let templatePath :=
        if isAbsPath sensitive.template then sensitive.template
        else joinPath cwd sensitive.template
      match lookupAssoc files templatePath with
      | none => .error ("failed to read template file " ++ sensitive.template ++ ": file does not exist")
      | some data => (pickSecrets allSecrets sensitive.secrets []).map (renderTemplate · data)
  else .error ("unknown format: " ++ sensitive.format)

/-- The per-service loop of `processSensitiveSecrets`: format each sensitive
rule set, derive the content-addressed secret name, record the generated
secret, and append a secret reference to the service. -/
def processSensitiveSecretsSvc (allSecrets : Secrets) (files : List (String × List Nat))
    (cwd : String) (svc : ServiceEnt) (secretsMap : List (String × FileObject)) :
    Except String (ServiceEnt × List (String × FileObject)) :=
  svc.sensitive.foldlM
    (fun acc p =>
      let name := p.1
      let sensitive := p.2
      match formatSensitiveSecrets allSecrets files sensitive cwd with
      | .error e =>
        .error ("failed to format sensitive secrets for service " ++ svc.name ++
                " target " ++ sensitive.target ++ ": " ++ e)
      | .ok content =>
        let secretName := hashedName name content
        .ok ({ acc.1 with
                 secretRefs := acc.1.secretRefs ++
                   [{ source := secretName, target := sensitive.target,
                      uid := sensitive.uid, gid := sensitive.gid, mode := sensitive.mode }] },
             updateAssoc acc.2 secretName { content := content }))
    (svc, secretsMap)

/-- Embeds `processSensitiveSecrets`: materialize every service's sensitive rule
sets into content-addressed generated secrets. -/
def processSensitiveSecrets (allSecrets : Secrets) (files : List (String × List Nat))
    (project : ProjectE) : Except String ProjectE := do
  let res ← project.services.foldlM
    (fun (acc : List ServiceEnt × List (String × FileObject)) svc => do
      let r ← processSensitiveSecretsSvc allSecrets files project.workingDir svc acc.2
      return (acc.1 ++ [r.1], r.2))
    ([], project.secrets)
  return { project with services := res.1, secrets := res.2 }

/-! ## Cluster fixture and the deploy pipeline (internal/docker) -/

/-- A cluster resource's inspect answer: ID and version token. -/
structure ResourceInfo where
  id : String
  version : Nat
  deriving DecidableEq, Repr

/-- The deterministic Cluster Client fixture: answers to the query calls the
deployer makes. Mutating calls are recorded as `DeployEvent`s and succeed. -/
structure ClusterState where
  managerAvailable : Bool := true
  networks : List (String × String) := []
  stackNetworks : List String := []
  secretsByName : List (String × ResourceInfo) := []
  configsByName : List (String × ResourceInfo) := []
  services : List ExistingService := []
  deriving Repr

/-- Embeds `ConvertSecrets`: skip external secrets; scope (or override) the name;
data from the referenced file, else from inline content. -/
def ConvertSecrets (stack : String) (files : List (String × List Nat))
    (secrets : List (String × FileObject)) : Except String (List (String × List Nat)) :=
  secrets.foldlM
    (fun acc p =>
      let name := p.1
      let secret := p.2
      if secret.external then .ok acc
      else
        let secretName := if secret.name ≠ "" then secret.name else ScopeName stack name
        if secret.file ≠ "" then
          match lookupAssoc files secret.file with
          | none => .error ("failed to read secret file " ++ secret.file ++ ": file does not exist")
          | some data => .ok (acc ++ [(secretName, data)])
        else .ok (acc ++ [(secretName, secret.content)]))
    []

/-- Embeds `ConvertConfigs`: identical to `ConvertSecrets` for configs. -/
def ConvertConfigs (stack : String) (files : List (String × List Nat))
    (configs : List (String × FileObject)) : Except String (List (String × List Nat)) :=
  configs.foldlM
    (fun acc p =>
      let name := p.1
      let config := p.2
      if config.external then .ok acc
      else
        let configName := if config.name ≠ "" then config.name else ScopeName stack name
        if config.file ≠ "" then
          match lookupAssoc files config.file with
          | none => .error ("failed to read config file " ++ config.file ++ ": file does not exist")
          | some data => .ok (acc ++ [(configName, data)])
        else .ok (acc ++ [(configName, config.content)]))
    []

/-- Embeds `createNetworks`: create each desired network absent from the
namespace-filtered listing, defaulting the driver. -/
def createNetworks (cluster : ClusterState) (networks : List (String × NetworkCreateOpts)) :
    List DeployEvent :=
  networks.foldl
    (fun acc p =>
      if cluster.stackNetworks.contains p.1 then acc
      else
        acc ++ [.networkCreate p.1 (if p.2.driver == "" then DefaultNetworkDriver else p.2.driver)])
    []

/-- Embeds `createSecrets`: update (with the inspected version token) when the
scoped name exists, else create. -/
def createSecretsE (cluster : ClusterState) (specs : List (String × List Nat)) :
    List DeployEvent :=
  specs.foldl
    (fun acc p =>
      match lookupAssoc cluster.secretsByName p.1 with
      | some info => acc ++ [.secretUpdate info.id info.version p.1]
      | none => acc ++ [.secretCreate p.1])
    []

/-- Embeds `createConfigs`: as `createSecrets`, for configs. -/
def createConfigsE (cluster : ClusterState) (specs : List (String × List Nat)) :
    List DeployEvent :=
  specs.foldl
    (fun acc p =>
      match lookupAssoc cluster.configsByName p.1 with
      | some info => acc ++ [.configUpdate info.id info.version p.1]
      | none => acc ++ [.configCreate p.1])
    []

/-- Embeds `convertService`, reduced to the reconciler-visible fields of the spec:
the scoped name, the image label, the image, a zero `ForceUpdate`, and the
resolved secret/config references sorted by name (the converter's
determinism rule); the remaining converted fields ride along in `rest`. -/
def convertServiceE (cluster : ClusterState) (stack : String) (svc : ServiceEnt)
    (secrets configs : List (String × FileObject)) : Except String ServiceSpecE := do
  let srefs ← svc.secretRefs.mapM
    (convertSecretRef stack secrets (cluster.secretsByName.map (fun p => (p.1, p.2.id))))
  let crefs ← svc.configs.mapM
    (convertConfigRef stack configs (cluster.configsByName.map (fun p => (p.1, p.2.id))))
  return { name := ScopeName stack svc.name, labelImage := svc.image, image := svc.image,
           forceUpdate := 0,
           secretRefs := List.insertionSort (fun a b => a.secretName ≤ b.secretName) srefs,
           configRefs := List.insertionSort (fun a b => a.configName ≤ b.configName) crefs,
           rest := svc.rest }

/-- Embeds `ConvertServices`: convert every service, keyed by internal name. -/
def ConvertServicesE (cluster : ClusterState) (stack : String) (project : ProjectE) :
    Except String (List (String × ServiceSpecE)) :=
  project.services.mapM
    (fun svc =>
      match convertServiceE cluster stack svc project.secrets project.configs with
      | .error e => .error ("failed to convert service " ++ svc.name ++ ": " ++ e)
      | .ok spec => .ok (svc.name, spec))

/-- Embeds `DeployOptions` (quiet/output/registry-auth fields are output- and
credential-plumbing only and are not modelled). -/
structure DeployOptions where
  stack : String
  prune : Bool := false
  resolveImage : String := ""
  deriving Repr

def swarmManagerErrMsg : String :=
  "this node is not a swarm manager. Use \"docker swarm init\" or \"docker swarm join\" " ++
    "to connect this node to swarm and try again"

/-- Embeds `errors.Join` of collected failures; the join is `nil` iff the list is
empty. -/
def joinErrors (errs : List String) : String := String.intercalate "\n" errs

/-- Embeds `Deploy` (internal/docker): materialize local configs and sensitive
secrets, require a swarm manager, optionally prune, convert and validate
networks, then create networks → secrets → configs → services in order.
Returns the recorded mutating calls and the error that aborted the run, if
any. -/
def Deploy (cluster : ClusterState) (files : List (String × List Nat))
    (secretsStore : Secrets) (project : ProjectE) (opts : DeployOptions) :
    List DeployEvent × Option String :=
  match processLocalConfigs files project with
  | .error e => ([], some ("failed to process local configs: " ++ e))
  | .ok p1 =>
  match processSensitiveSecrets secretsStore files p1 with
  | .error e => ([], some ("failed to process sensitive secrets: " ++ e))
  | .ok p2 =>
  if !cluster.managerAvailable then ([], some swarmManagerErrMsg)
  else
  let pruneRes :=
    if opts.prune then pruneServices cluster.services (p2.services.map (·.name)) else ([], [])
  if opts.prune && !pruneRes.2.isEmpty then (pruneRes.1, some (joinErrors pruneRes.2))
  else
  let conv := ConvertNetworks opts.stack p2.networks (GetServicesDeclaredNetworks p2.services)
  match validateExternalNetworks cluster.networks conv.2 with
  | some e => (pruneRes.1, some e)
  | none =>
  let netEvents := createNetworks cluster conv.1
  match ConvertSecrets opts.stack files p2.secrets with
  | .error e => (pruneRes.1 ++ netEvents, some e)
  | .ok secretSpecs =>
  let secretEvents := createSecretsE cluster secretSpecs
  match ConvertConfigs opts.stack files p2.configs with
  | .error e => (pruneRes.1 ++ netEvents ++ secretEvents, some e)
  | .ok configSpecs =>
  let configEvents := createConfigsE cluster configSpecs
  match ConvertServicesE cluster opts.stack p2 with
  | .error e => (pruneRes.1 ++ netEvents ++ secretEvents ++ configEvents, some e)
  | .ok services =>
  let dres := deployServices services cluster.services opts.stack opts.resolveImage
  (pruneRes.1 ++ netEvents ++ secretEvents ++ configEvents ++ dres.1, none)

/-- Whether an event creates or updates a resource (anything but a prune
removal). -/
def isCreateOrUpdateEvent : DeployEvent → Bool
  | .serviceRemove _ => false
  | _ => true

/-- A trace that creates or updates nothing. -/
def noCreateEvents (evs : List DeployEvent) : Bool :=
  evs.all (fun e => !(isCreateOrUpdateEvent e))

/-! ## Convergence waiter (docker.go `waitOnServices`) -/

/-- Embeds `swarm.ServiceStatus`: reported running and desired task counts. -/
structure ServiceStatusE where
  runningTasks : Nat
  desiredTasks : Nat
  deriving DecidableEq, Repr

/-- The waiter's convergence test: `running >= desired && desired > 0`. -/
def serviceConverged (st : ServiceStatusE) : Bool :=
  decide (st.desiredTasks ≤ st.runningTasks) && decide (0 < st.desiredTasks)

/-- The claim's convergence test: running greater than zero and at least
desired. Stated from the spec's words, to be compared with
`serviceConverged`. -/
def claimConverged (st : ServiceStatusE) : Bool :=
  decide (0 < st.runningTasks) && decide (st.desiredTasks ≤ st.runningTasks)

/-- Whether the caller's cancellation has fired by tick `t`. -/
def ctxDone (cancelAt : Option Nat) (t : Nat) : Bool :=
  match cancelAt with
  | some c => decide (c ≤ t)
  | none => false

def timeoutMsg (sid : String) : String :=
  "timeout waiting for service " ++ sid ++ " to converge"

/-- Embeds `context.Canceled`'s message, which the waiter returns verbatim
(`ctx.Err()`) on cancellation. -/
def contextCanceledMsg : String := "context canceled"

/-- The per-service wait loop of `waitOnServices`: one recursion step per
1-second tick. `status t` is the `ServiceInspect` answer at tick `t` (`none`
models a nil `ServiceStatus`), `fuel` the ticks left until the deadline
timer fires, `cancelAt` the tick at which the caller's context is done. The
cancellation branch is checked first, as the `select` lists it first;
success returns the final running/desired counts. -/
def waitOnService (sid : String) (status : Nat → Option ServiceStatusE)
    (cancelAt : Option Nat) : Nat → Nat → Except String (Nat × Nat)
  | 0, t =>
    if ctxDone cancelAt t then .error contextCanceledMsg else .error (timeoutMsg sid)
  | fuel + 1, t =>
    if ctxDone cancelAt t then .error contextCanceledMsg
    else
      match status t with
      | some st =>
        if serviceConverged st then .ok (st.runningTasks, st.desiredTasks)
        else waitOnService sid status cancelAt fuel (t + 1)
      | none => waitOnService sid status cancelAt fuel (t + 1)

/-- The inspect answer at tick `t` satisfies the waiter's convergence test. -/
def polledConverged (status : Nat → Option ServiceStatusE) (t : Nat) : Bool :=
  match status t with
  | some st => serviceConverged st
  | none => false

/-- Substring test on character lists. -/
def charsContains (needle : List Char) : List Char → Bool
  | [] => needle.isEmpty
  | c :: rest => needle.isPrefixOf (c :: rest) || charsContains needle rest

/-- Whether `needle` occurs in `hay`. -/
def strContains (hay needle : String) : Bool := charsContains needle.data hay.data

/-- The shape `capabilitiesMap` normalization guarantees: the literal `ALL`
or a `CAP_`-prefixed name. -/
def normalizedCapShape (x : String) : Prop :=
  x = "ALL" ∨ ∃ t, x.data = capPrefixChars ++ t

instance {ε α : Type} [DecidableEq ε] [DecidableEq α] : DecidableEq (Except ε α) := fun x y =>
  match x, y with
  | .error a, .error b => if h : a = b then isTrue (by rw [h]) else isFalse (by simp [h])
  | .ok a, .ok b => if h : a = b then isTrue (by rw [h]) else isFalse (by simp [h])
  | .error _, .ok _ => isFalse (by simp)
  | .ok _, .error _ => isFalse (by simp)

/-! ## Theorems -/

theorem strData_append (s t : String) : (s ++ t).data = s.data ++ t.data := by
  cases s
  cases t
  rfl

/-- C3: for an existing service being updated, `changed` re-queries the
registry iff the desired image differs from the recorded `LabelImage` label,
and otherwise substitutes the existing service's resolved image verbatim;
any policy other than `always`/`changed` (in particular `never` and the
default) never queries the registry and reuses the existing resolved image
verbatim whenever the desired image equals the recorded label. -/
theorem resolveImage_policy_semantics (image : String) (ex : ServiceSpecE) :
    ((resolveImageOnUpdate ResolveImageChanged image ex).1 = true ↔ image ≠ ex.labelImage) ∧
    (image = ex.labelImage →
      resolveImageOnUpdate ResolveImageChanged image ex = (false, ex.image)) ∧
    (∀ policy, policy ≠ ResolveImageAlways → policy ≠ ResolveImageChanged →
      (resolveImageOnUpdate policy image ex).1 = false ∧
      (image = ex.labelImage → (resolveImageOnUpdate policy image ex).2 = ex.image)) := by
  refine ⟨?_, ?_, ?_⟩
  · by_cases h : image = ex.labelImage <;>
      simp [resolveImageOnUpdate, ResolveImageAlways, ResolveImageChanged, h]
  · intro h
    simp [resolveImageOnUpdate, ResolveImageAlways, ResolveImageChanged, h]
  · intro policy h1 h2
    simp only [ResolveImageAlways] at h1
    simp only [ResolveImageChanged] at h2
    by_cases h : image = ex.labelImage <;>
      simp [resolveImageOnUpdate, ResolveImageAlways, ResolveImageChanged, h, h1, h2]

/-- Witness for `resolveImage_policy_semantics` at policy `never` on an
unchanged image. -/
theorem resolveImage_policy_semantics_witness :
    resolveImageOnUpdate ResolveImageNever "app:v1"
        { name := "demo_web", labelImage := "app:v1", image := "app:v1@sha256:abc",
          forceUpdate := 0 } =
      (false, "app:v1@sha256:abc") := by
  have h := (resolveImage_policy_semantics "app:v1"
      { name := "demo_web", labelImage := "app:v1", image := "app:v1@sha256:abc",
        forceUpdate := 0 }).2.2 ResolveImageNever (by decide) (by decide)
  have h1 := h.1
  have h2 := h.2 rfl
  exact Prod.ext h1 h2

/-- C8: the legacy restart shorthand `condition[:max-attempts]`: empty or
`no` yields no policy; `always`/`unless-stopped` yield condition `any`;
`on-failure` yields condition `on-failure` with the optional parsed numeric
bound; a non-numeric attempts suffix or an unrecognized condition is a fatal
error. -/
theorem convertRestartPolicy_shorthand :
    (convertRestartPolicy "" none = .ok none) ∧
    (convertRestartPolicy "no" none = .ok none) ∧
    (convertRestartPolicy "always" none =
      .ok (some { condition := RestartPolicyConditionAny })) ∧
    (convertRestartPolicy "unless-stopped" none =
      .ok (some { condition := RestartPolicyConditionAny })) ∧
    (convertRestartPolicy "on-failure" none =
      .ok (some { condition := RestartPolicyConditionOnFailure })) ∧
    (∀ restart v, restart ≠ "" → restart ≠ "no" →
      (stringCut restart).1 = "on-failure" → (stringCut restart).2.1 ≠ "" →
      goParseUint (stringCut restart).2.1 = some v →
      convertRestartPolicy restart none =
        .ok (some { condition := RestartPolicyConditionOnFailure, maxAttempts := some v })) ∧
    (∀ restart, restart ≠ "" → restart ≠ "no" →
      (stringCut restart).2.1 ≠ "" → goParseUint (stringCut restart).2.1 = none →
      convertRestartPolicy restart none = .error ("invalid restart policy: " ++ restart)) ∧
    (∀ restart, restart ≠ "" → restart ≠ "no" →
      (stringCut restart).1 ≠ "always" → (stringCut restart).1 ≠ "unless-stopped" →
      (stringCut restart).1 ≠ "on-failure" → (stringCut restart).2.1 = "" →
      convertRestartPolicy restart none = .error ("unknown restart policy: " ++ restart)) ∧
    (∀ restart v, restart ≠ "" → restart ≠ "no" →
      (stringCut restart).1 ≠ "always" → (stringCut restart).1 ≠ "unless-stopped" →
      (stringCut restart).1 ≠ "on-failure" → goParseUint (stringCut restart).2.1 = some v →
      convertRestartPolicy restart none = .error ("unknown restart policy: " ++ restart)) := by
  refine ⟨by decide, by decide, by decide, by decide, by decide, ?_, ?_, ?_, ?_⟩
  · intro restart v h1 h2 hcut hne hparse
    simp [convertRestartPolicy, h1, h2, hcut, hne, hparse]
  · intro restart h1 h2 hne hparse
    simp [convertRestartPolicy, h1, h2, hne, hparse]
  · intro restart h1 h2 ha hu hf he
    simp [convertRestartPolicy, h1, h2, ha, hu, hf, he]
  · intro restart v h1 h2 ha hu hf hparse
    have hne : (stringCut restart).2.1 ≠ "" := by
      intro he
      rw [he] at hparse
      simp [goParseUint] at hparse
    simp [convertRestartPolicy, h1, h2, ha, hu, hf, hne, hparse]

/-- Witness for `convertRestartPolicy_shorthand`: `on-failure:3` parses to
condition `on-failure` bounded by 3. -/
theorem convertRestartPolicy_shorthand_witness :
    convertRestartPolicy "on-failure:3" none =
      .ok (some { condition := RestartPolicyConditionOnFailure, maxAttempts := some 3 }) :=
  convertRestartPolicy_shorthand.2.2.2.2.2.1 "on-failure:3" 3
    (by decide) (by decide) (by decide) (by decide) (by decide)

/-- C10: a secret reference with unset target/uid/gid/mode resolves with
target defaulted to the bare source name, uid and gid `"0"`, and mode
`0444`; a config reference defaults identically except that its target is
`"/"` prepended to the source name. -/
theorem ref_defaults (stack srcS srcC sid cid : String) (o co : FileObject)
    (secrets configs : List (String × FileObject)) (ids cids : List (String × String))
    (hs : lookupAssoc secrets srcS = some o)
    (hsi : lookupAssoc ids
      (if o.name ≠ "" then o.name else if o.external then srcS else ScopeName stack srcS) = some sid)
    (hc : lookupAssoc configs srcC = some co)
    (hci : lookupAssoc cids
      (if co.name ≠ "" then co.name else if co.external then srcC else ScopeName stack srcC) = some cid) :
    convertSecretRef stack secrets ids { source := srcS } =
      .ok { secretID := sid,
            secretName := if o.name ≠ "" then o.name else if o.external then srcS else ScopeName stack srcS,
            file := { name := srcS, uid := "0", gid := "0", mode := 0o444 } } ∧
    convertConfigRef stack configs cids { source := srcC } =
      .ok { configID := cid,
            configName := if co.name ≠ "" then co.name else if co.external then srcC else ScopeName stack srcC,
            file := { name := "/" ++ srcC, uid := "0", gid := "0", mode := 0o444 } } := by
  constructor
  · simp only [convertSecretRef, hs]
    simp only [hsi]
    rfl
  · simp only [convertConfigRef, hc]
    simp only [hci]
    rfl

/-- Witness for `ref_defaults` on one-entry secret and config maps. -/
theorem ref_defaults_witness :
    convertSecretRef "demo" [("cert", {})] [("demo_cert", "sid1")] { source := "cert" } =
      .ok { secretID := "sid1", secretName := "demo_cert",
            file := { name := "cert", uid := "0", gid := "0", mode := 0o444 } } ∧
    convertConfigRef "demo" [("cfg", {})] [("demo_cfg", "cid1")] { source := "cfg" } =
      .ok { configID := "cid1", configName := "demo_cfg",
            file := { name := "/cfg", uid := "0", gid := "0", mode := 0o444 } } := by
  have h := ref_defaults "demo" "cert" "cfg" "sid1" "cid1" {} {}
    [("cert", {})] [("cfg", {})] [("demo_cert", "sid1")] [("demo_cfg", "cid1")]
    (by decide) (by decide) (by decide) (by decide)
  exact ⟨h.1, h.2⟩

/-- C4 (amended): for one logical name, two contents generate the same name
exactly when the first 8 hex characters of their SHA-256 digests agree —
equal contents always collide, but distinct contents collide exactly on a
truncated-digest collision. -/
theorem hashedName_content_addressed (n : String) (c1 c2 : List Nat) :
    hashedName n c1 = hashedName n c2 ↔
      (sha256HexChars c1).take 8 = (sha256HexChars c2).take 8 := by
  unfold hashedName
  constructor
  · intro h
    have h2 := congrArg String.data h
    rw [strData_append, strData_append] at h2
    exact List.append_cancel_left h2
  · intro h
    rw [h]

/-- C4 counterexample: two distinct contents whose truncated digests agree,
so their generated names are identical (`sha256("f9r")` and `sha256("6xb")`
both start with `874ccd8c`), refuting "for c1 != c2 the generated names
differ". -/
theorem hashedName_collision :
    strBytes "f9r" ≠ strBytes "6xb" ∧
    hashedName "app" (strBytes "f9r") = hashedName "app" (strBytes "6xb") :=
  ⟨by decide, by decide⟩

/-- C5 (amended): `raw` fails when no secrets are listed, and whenever the
picked map of (renamed) output keys has size ≠ 1 — a rule set listing
several secrets under one output name passes; with exactly one listed secret
it returns the stored value byte-for-byte. -/
theorem formatRaw_secret_count (store : Secrets) (s : SensitiveSecret) (v : String)
    (hv : lookupAssoc store.values s.source = some v) :
    (FormatSecretsForSensitive store [] SecretOutputRaw =
      .error "no secrets specified for sensitive config") ∧
    (FormatSecretsForSensitive store [s] SecretOutputRaw = .ok (FormatRaw v)) ∧
    (∀ needed picked, needed ≠ [] → pickSecrets store needed [] = .ok picked →
      picked.length ≠ 1 →
      FormatSecretsForSensitive store needed SecretOutputRaw =
        .error ("raw format requires exactly one secret, got " ++ toString picked.length)) := by
  refine ⟨rfl, ?_, ?_⟩
  · simp only [FormatSecretsForSensitive, pickSecrets, hv, updateAssoc]
    simp [SecretOutputRaw, SecretOutputEnv, SecretOutputJSON]
  · intro needed picked hne hpick hlen
    have hlen0 : (needed.length == 0) = false := by
      cases needed
      · exact absurd rfl hne
      · simp
    simp only [FormatSecretsForSensitive, hlen0, hpick]
    simp [SecretOutputRaw, SecretOutputEnv, SecretOutputJSON, hlen]

/-- Witness for `formatRaw_secret_count`: one listed, present secret is
returned byte-for-byte. -/
theorem formatRaw_secret_count_witness :
    FormatSecretsForSensitive ⟨[("a", "va")]⟩ [{ source := "a", name := "" }] SecretOutputRaw =
      .ok (FormatRaw "va") :=
  (formatRaw_secret_count ⟨[("a", "va")]⟩ { source := "a", name := "" } "va" (by decide)).2.1

/-- C5 counterexample: two listed secrets renamed to the same output key
`K` collapse to a one-entry picked map, so `raw` succeeds (returning the
later value) although two secrets are listed, refuting "fails whenever more
than one secret is listed". -/
theorem formatRaw_two_renamed_counterexample :
    ([({ source := "a", name := "K" } : SensitiveSecret), { source := "b", name := "K" }].length = 2) ∧
    FormatSecretsForSensitive ⟨[("a", "va"), ("b", "vb")]⟩
        [{ source := "a", name := "K" }, { source := "b", name := "K" }] SecretOutputRaw =
      .ok (FormatRaw "vb") :=
  ⟨rfl, by decide⟩

/-- C2: the prune pass issues a `ServiceRemove` for exactly the existing
services whose spec name is absent from the desired set (one whose name is
present is never removed), and collects the failures of all attempted
removals — the pass never aborts early, and the joined aggregate is the
full failure list. -/
theorem pruneServices_exact (existing : List ExistingService) (desired : List String) :
    pruneServices existing desired =
      ((existing.filter (fun s => !(desired.contains s.spec.name))).map
        (fun s => DeployEvent.serviceRemove s.id),
       (existing.filter
          (fun s => !(desired.contains s.spec.name) && s.removeError.isSome)).map
        (fun s => s.removeError.getD "")) := by
  induction existing with
  | nil => rfl
  | cons svc rest ih =>
    by_cases hm : svc.spec.name ∈ desired <;>
      cases hre : svc.removeError <;>
        simp [pruneServices, hm, hre, ih, List.filter_cons]

theorem mem_capsInsert {l : List String} {c x : String} :
    x ∈ capsInsert l c ↔ x ∈ l ∨ x = c := by
  by_cases h : c ∈ l
  · simp only [capsInsert]
    rw [if_pos (List.elem_eq_true_of_mem h)]
    constructor
    · exact Or.inl
    · rintro (hx | rfl)
      · exact hx
      · exact h
  · simp only [capsInsert]
    rw [if_neg (by simpa using h)]
    simp

theorem mem_capsFold (caps : List String) (acc : List String) (x : String) :
    x ∈ caps.foldl (fun l c => capsInsert l (capNormalize c)) acc ↔
      x ∈ acc ∨ ∃ c ∈ caps, capNormalize c = x := by
  induction caps generalizing acc with
  | nil => simp
  | cons c rest ih =>
    simp only [List.foldl_cons, ih, mem_capsInsert, List.mem_cons]
    constructor
    · rintro (h | ⟨d, hd, hdx⟩)
      · rcases h with h | h
        · exact Or.inl h
        · exact Or.inr ⟨c, Or.inl rfl, h.symm⟩
      · exact Or.inr ⟨d, Or.inr hd, hdx⟩
    · rintro (h | ⟨d, hd | hd, hdx⟩)
      · exact Or.inl (Or.inl h)
      · subst hd
        exact Or.inl (Or.inr hdx.symm)
      · exact Or.inr ⟨d, hd, hdx⟩

theorem mem_capabilitiesMap (caps : List String) (x : String) :
    x ∈ capabilitiesMap caps ↔ ∃ c ∈ caps, capNormalize c = x := by
  simpa using mem_capsFold caps [] x

theorem mem_sortStrings (l : List String) (x : String) :
    x ∈ sortStrings l ↔ x ∈ l :=
  (List.perm_insertionSort _ l).mem_iff

theorem capNormalize_shape (c : String) : normalizedCapShape (capNormalize c) := by
  unfold capNormalize
  dsimp only
  by_cases h1 : upperAscii (trimSpace c) = "ALL"
  · simp [normalizedCapShape, h1]
  · by_cases h2 : (upperAscii (trimSpace c)).data.take 4 = capPrefixChars
    · have hsplit : (upperAscii (trimSpace c)).data =
          capPrefixChars ++ (upperAscii (trimSpace c)).data.drop 4 := by
        conv_lhs => rw [← List.take_append_drop 4 (upperAscii (trimSpace c)).data]
        rw [h2]
      simp only [normalizedCapShape, h1, h2, beq_iff_eq, beq_self_eq_true, Bool.or_true,
        if_true, decide_eq_true_eq]
      right
      exact ⟨_, hsplit⟩
    · have hcond : (upperAscii (trimSpace c) == "ALL" ||
          ((upperAscii (trimSpace c)).data.take 4 == capPrefixChars)) = false := by
        simp [h1, h2]
      rw [hcond]
      refine Or.inr ⟨(upperAscii (trimSpace c)).data, ?_⟩
      simp

theorem effectiveCapAddCapDrop_eq (add drop : List String) :
    effectiveCapAddCapDrop add drop =
      (sortStrings (if "ALL" ∈ capabilitiesMap add then ["ALL"] else capabilitiesMap add),
       sortStrings
         ((if "ALL" ∈ capabilitiesMap drop then ["ALL"] else capabilitiesMap drop).filter
           (fun c =>
             !((if "ALL" ∈ capabilitiesMap add then ["ALL"] else capabilitiesMap add).contains c)))) := by
  unfold effectiveCapAddCapDrop
  by_cases hA : "ALL" ∈ capabilitiesMap add <;>
    by_cases hD : "ALL" ∈ capabilitiesMap drop <;> simp [hA, hD]

theorem sortStrings_single (s : String) : sortStrings [s] = [s] := rfl

/-- C6 (amended): every effective add/drop entry is the normalization
(trim, upper-case, `CAP_` prefix except the literal `ALL`) of a declared
entry; `ALL` in the add list collapses the effective add set to exactly
`["ALL"]`; `ALL` in the drop list collapses the effective drop set to
`["ALL"]` unless `ALL` is also added, in which case the drop set is empty;
and a capability appearing in the add set is excluded from the effective
drop set (the add list wins — nothing is ever excluded from the add set). -/
theorem effectiveCaps_semantics (add drop : List String) :
    (∀ x ∈ (effectiveCapAddCapDrop add drop).1, ∃ c ∈ add, capNormalize c = x) ∧
    (∀ x ∈ (effectiveCapAddCapDrop add drop).2, ∃ c ∈ drop, capNormalize c = x) ∧
    (∀ c : String, normalizedCapShape (capNormalize c)) ∧
    ("ALL" ∈ capabilitiesMap add → (effectiveCapAddCapDrop add drop).1 = ["ALL"]) ∧
    ("ALL" ∈ capabilitiesMap drop → "ALL" ∉ capabilitiesMap add →
      (effectiveCapAddCapDrop add drop).2 = ["ALL"]) ∧
    ("ALL" ∈ capabilitiesMap drop → "ALL" ∈ capabilitiesMap add →
      (effectiveCapAddCapDrop add drop).2 = []) ∧
    (∀ x ∈ (effectiveCapAddCapDrop add drop).2, x ∉ (effectiveCapAddCapDrop add drop).1) ∧
    ("ALL" ∉ capabilitiesMap add →
      ∀ x, x ∈ (effectiveCapAddCapDrop add drop).1 ↔ x ∈ capabilitiesMap add) := by
  rw [effectiveCapAddCapDrop_eq]
  refine ⟨?_, ?_, capNormalize_shape, ?_, ?_, ?_, ?_, ?_⟩
  · intro x hx
    rw [mem_sortStrings] at hx
    by_cases hA : "ALL" ∈ capabilitiesMap add
    · rw [if_pos hA] at hx
      simp only [List.mem_singleton] at hx
      subst hx
      exact (mem_capabilitiesMap add "ALL").mp hA
    · rw [if_neg hA] at hx
      exact (mem_capabilitiesMap add x).mp hx
  · intro x hx
    rw [mem_sortStrings, List.mem_filter] at hx
    have hx1 := hx.1
    by_cases hD : "ALL" ∈ capabilitiesMap drop
    · rw [if_pos hD] at hx1
      simp only [List.mem_singleton] at hx1
      subst hx1
      exact (mem_capabilitiesMap drop "ALL").mp hD
    · rw [if_neg hD] at hx1
      exact (mem_capabilitiesMap drop x).mp hx1
  · intro hA
    rw [if_pos hA]
    exact sortStrings_single "ALL"
  · intro hD hA
    rw [if_pos hD, if_neg hA]
    have hf : (["ALL"].filter (fun c => !((capabilitiesMap add).contains c))) = ["ALL"] := by
      simp [hA]
    rw [hf]
    exact sortStrings_single "ALL"
  · intro hD hA
    rw [if_pos hD, if_pos hA]
    have hf : (["ALL"].filter (fun c => !((["ALL"] : List String).contains c))) = [] := by
      simp
    rw [hf]
    rfl
  · intro x hx hx1
    rw [mem_sortStrings, List.mem_filter] at hx
    rw [mem_sortStrings] at hx1
    have hpred := hx.2
    simp at hpred
    exact hpred hx1
  · intro hA x
    rw [if_neg hA, mem_sortStrings]

/-- Witness for `effectiveCaps_semantics`: `ALL` collapses the add set; a
drop-only `ALL` collapses the drop set. -/
theorem effectiveCaps_semantics_witness :
    (effectiveCapAddCapDrop ["ALL", "net_admin"] ["sys_admin"]).1 = ["ALL"] ∧
    (effectiveCapAddCapDrop ["net_admin"] ["ALL"]).2 = ["ALL"] :=
  ⟨(effectiveCaps_semantics ["ALL", "net_admin"] ["sys_admin"]).2.2.2.1 (by decide),
   (effectiveCaps_semantics ["net_admin"] ["ALL"]).2.2.2.2.1 (by decide) (by decide)⟩

/-- C6 counterexample: a capability both added and dropped stays in the
effective add set and vanishes from the effective drop set — the add list
wins, refuting "any capability appearing in the drop list is excluded from
the effective add set". -/
theorem capDrop_not_excluding_add_counterexample :
    effectiveCapAddCapDrop ["NET_ADMIN"] ["NET_ADMIN"] = (["CAP_NET_ADMIN"], []) ∧
    "CAP_NET_ADMIN" ∈ (effectiveCapAddCapDrop ["NET_ADMIN"] ["NET_ADMIN"]).1 :=
  ⟨by decide, by decide⟩

theorem resolveImageOnUpdate_reuse (resolveImage image : String) (ex : ServiceSpecE)
    (hpol : resolveImage ≠ ResolveImageAlways) (himg : image = ex.labelImage) :
    resolveImageOnUpdate resolveImage image ex = (false, ex.image) := by
  simp only [ResolveImageAlways] at hpol
  by_cases hc : resolveImage = ResolveImageChanged <;>
    simp [resolveImageOnUpdate, ResolveImageAlways, ResolveImageChanged, hpol, hc, himg]

/-- C1 (amended): redeploying an unchanged service against a cluster already
holding it issues exactly one `ServiceUpdate` call (and no create): the call
carries the existing service's version token and a spec identical to the
existing one — the desired image is replaced by the previously resolved one
(the logical image matches the recorded label) and the `ForceUpdate` counter
is carried forward — so the redeploy is a semantic no-op, though not a
zero-call one. Holds for every policy except `always`. -/
theorem redeploy_unchanged_is_noop_update (stack internalName resolveImage : String)
    (spec : ServiceSpecE) (svc : ExistingService)
    (hname : svc.spec.name = ScopeName stack internalName)
    (hspecname : spec.name = svc.spec.name)
    (hlbl : spec.labelImage = svc.spec.labelImage)
    (himg : spec.image = svc.spec.labelImage)
    (hsec : spec.secretRefs = svc.spec.secretRefs)
    (hcfg : spec.configRefs = svc.spec.configRefs)
    (hrest : spec.rest = svc.spec.rest)
    (hpol : resolveImage ≠ ResolveImageAlways) :
    deployServices [(internalName, spec)] [svc] stack resolveImage =
      ([.serviceUpdate svc.id { version := svc.version, queryRegistry := false, spec := svc.spec }],
       [svc.id]) := by
  have hlook : lookupExistingService [svc] (ScopeName stack internalName) = some svc := by
    simp [lookupExistingService, hname]
  have hres : resolveImageOnUpdate resolveImage spec.image svc.spec = (false, svc.spec.image) :=
    resolveImageOnUpdate_reuse resolveImage spec.image svc.spec hpol himg
  have hspec' : { spec with image := svc.spec.image, forceUpdate := svc.spec.forceUpdate } =
      svc.spec := by
    obtain ⟨n0, l0, i0, f0, s0, c0, r0⟩ := spec
    obtain ⟨sid, sver, sp, srem⟩ := svc
    obtain ⟨n1, l1, i1, f1, s1, c1, r1⟩ := sp
    simp_all
  simp only [deployServices, List.foldl_cons, List.foldl_nil, hlook, hres, hspec',
    List.nil_append]

/-- Witness for `redeploy_unchanged_is_noop_update`: a concrete unchanged
`web` service under policy `never` yields the single no-op update. -/
theorem redeploy_unchanged_is_noop_update_witness :
    deployServices
        [("web", { name := "demo_web", labelImage := "app:v1", image := "app:v1",
                   forceUpdate := 0 })]
        [{ id := "id1", version := 7,
           spec := { name := "demo_web", labelImage := "app:v1", image := "app:v1@sha256:abc",
                     forceUpdate := 4 } }]
        "demo" ResolveImageNever =
      ([.serviceUpdate "id1"
          { version := 7, queryRegistry := false,
            spec := { name := "demo_web", labelImage := "app:v1", image := "app:v1@sha256:abc",
                      forceUpdate := 4 } }],
       ["id1"]) :=
  redeploy_unchanged_is_noop_update "demo" "web" ResolveImageNever _ _
    rfl rfl rfl rfl rfl rfl rfl (by decide)

/-- C1 counterexample: a redeploy of a byte-identical desired spec against a
cluster already holding it still issues one `ServiceUpdate` call, refuting
"zero service update calls for services whose desired spec is unchanged". -/
theorem redeploy_update_call_counterexample :
    deployServices
        [("web", { name := "demo_web", labelImage := "app:v1", image := "app:v1",
                   forceUpdate := 0 })]
        [{ id := "id1", version := 3,
           spec := { name := "demo_web", labelImage := "app:v1", image := "app:v1",
                     forceUpdate := 0 } }]
        "demo" ResolveImageNever =
      ([.serviceUpdate "id1"
          { version := 3, queryRegistry := false,
            spec := { name := "demo_web", labelImage := "app:v1", image := "app:v1",
                      forceUpdate := 0 } }],
       ["id1"]) ∧
    countServiceUpdates
      (deployServices
        [("web", { name := "demo_web", labelImage := "app:v1", image := "app:v1",
                   forceUpdate := 0 })]
        [{ id := "id1", version := 3,
           spec := { name := "demo_web", labelImage := "app:v1", image := "app:v1",
                     forceUpdate := 0 } }]
        "demo" ResolveImageNever).1 = 1 :=
  ⟨by decide, by decide⟩

theorem waitOnService_ok_iff (sid : String) (status : Nat → Option ServiceStatusE) :
    ∀ fuel t, (∃ rd, waitOnService sid status none fuel t = .ok rd) ↔
      ∃ i, i < fuel ∧ polledConverged status (t + i) = true := by
  intro fuel
  induction fuel with
  | zero =>
    intro t
    constructor
    · rintro ⟨rd, h⟩
      simp [waitOnService, ctxDone] at h
    · rintro ⟨i, hi, _⟩
      omega
  | succ f ih =>
    intro t
    have hstep : polledConverged status t = false →
        waitOnService sid status none (f + 1) t = waitOnService sid status none f (t + 1) := by
      intro hp
      cases hst : status t with
      | none => simp [waitOnService, ctxDone, hst]
      | some st =>
        have hcv : serviceConverged st = false := by
          simpa [polledConverged, hst] using hp
        simp [waitOnService, ctxDone, hst, hcv]
    constructor
    · rintro ⟨rd, h⟩
      by_cases hp : polledConverged status t = true
      · exact ⟨0, by omega, by simpa using hp⟩
      · rw [hstep (by simpa using hp)] at h
        obtain ⟨i, hi, hc⟩ := (ih (t + 1)).mp ⟨rd, h⟩
        refine ⟨i + 1, by omega, ?_⟩
        have harith : t + 1 + i = t + (i + 1) := by omega
        rwa [harith] at hc
    · rintro ⟨i, hi, hc⟩
      by_cases hp : polledConverged status t = true
      · cases hst : status t with
        | none => simp [polledConverged, hst] at hp
        | some st =>
          have hcv : serviceConverged st = true := by
            simpa [polledConverged, hst] using hp
          exact ⟨(st.runningTasks, st.desiredTasks), by simp [waitOnService, ctxDone, hst, hcv]⟩
      · have hi0 : i ≠ 0 := by
          intro h0
          subst h0
          simp only [Nat.add_zero] at hc
          exact hp hc
        have hrec := (ih (t + 1)).mpr
          ⟨i - 1, by omega, by
            have harith : t + 1 + (i - 1) = t + i := by omega
            rwa [harith]⟩
        obtain ⟨rd, hrd⟩ := hrec
        refine ⟨rd, ?_⟩
        rw [hstep (by simpa using hp)]
        exact hrd

theorem waitOnService_timeout (sid : String) (status : Nat → Option ServiceStatusE) :
    ∀ fuel t, (∀ i, i < fuel → polledConverged status (t + i) = false) →
      waitOnService sid status none fuel t = .error (timeoutMsg sid) := by
  intro fuel
  induction fuel with
  | zero =>
    intro t _
    simp [waitOnService, ctxDone]
  | succ f ih =>
    intro t h
    have h0 := h 0 (by omega)
    simp only [Nat.add_zero] at h0
    have hrest : ∀ i, i < f → polledConverged status (t + 1 + i) = false := by
      intro i hi
      have := h (i + 1) (by omega)
      have harith : t + (i + 1) = t + 1 + i := by omega
      rwa [harith] at this
    have hstep : waitOnService sid status none (f + 1) t = waitOnService sid status none f (t + 1) := by
      cases hst : status t with
      | none => simp [waitOnService, ctxDone, hst]
      | some st =>
        have hcv : serviceConverged st = false := by
          simpa [polledConverged, hst] using h0
        simp [waitOnService, ctxDone, hst, hcv]
    rw [hstep]
    exact ih (t + 1) hrest

theorem waitOnService_cancelled (sid : String) (status : Nat → Option ServiceStatusE)
    (c : Nat) : ∀ fuel t, c ≤ t →
      waitOnService sid status (some c) fuel t = .error contextCanceledMsg := by
  intro fuel
  cases fuel <;> intro t h <;> simp [waitOnService, ctxDone, h]

/-- C9 (amended): the per-service wait polls tick by tick (a fixed 1-second
interval) and succeeds exactly when some poll before the deadline reports a
status with desired-task count positive and running at least desired —
`running > 0` alone does not suffice when `desired = 0`; if no such poll
occurs the deadline fires with an error naming the service; a cancellation
that has fired ends the wait with the context's cancellation error, which
does not name the service. -/
theorem waitOnService_semantics (sid : String) (status : Nat → Option ServiceStatusE)
    (fuel t c : Nat) (hc : c ≤ t) :
    ((∃ rd, waitOnService sid status none fuel t = .ok rd) ↔
      ∃ i, i < fuel ∧ polledConverged status (t + i) = true) ∧
    ((∀ i, i < fuel → polledConverged status (t + i) = false) →
      waitOnService sid status none fuel t = .error (timeoutMsg sid)) ∧
    waitOnService sid status (some c) fuel t = .error contextCanceledMsg :=
  ⟨waitOnService_ok_iff sid status fuel t,
   waitOnService_timeout sid status fuel t,
   waitOnService_cancelled sid status c fuel t hc⟩

/-- Witness for `waitOnService_semantics`: a service stuck at 0/1 times out
with an error naming it, and a fired cancellation returns the bare context
error. -/
theorem waitOnService_semantics_witness :
    waitOnService "web" (fun _ => some { runningTasks := 0, desiredTasks := 1 }) none 3 0 =
      .error (timeoutMsg "web") ∧
    waitOnService "web" (fun _ => some { runningTasks := 0, desiredTasks := 1 }) (some 0) 3 0 =
      .error contextCanceledMsg := by
  have h := waitOnService_semantics "web"
    (fun _ => some { runningTasks := 0, desiredTasks := 1 }) 3 0 0 (Nat.le_refl 0)
  exact ⟨h.2.1 (by decide), h.2.2⟩

/-- C9 counterexample: a status reporting 1 running and 0 desired tasks
satisfies the claim's "running > 0 and at least desired" test, yet the
waiter never treats it as converged and times out; and a cancellation ends
the wait with `context canceled`, which does not name the service. -/
theorem waitOnService_claim_counterexample :
    claimConverged { runningTasks := 1, desiredTasks := 0 } = true ∧
    serviceConverged { runningTasks := 1, desiredTasks := 0 } = false ∧
    waitOnService "web" (fun _ => some { runningTasks := 1, desiredTasks := 0 }) none 3 0 =
      .error (timeoutMsg "web") ∧
    waitOnService "web" (fun _ => some { runningTasks := 0, desiredTasks := 1 }) (some 2) 9 0 =
      .error contextCanceledMsg ∧
    strContains contextCanceledMsg "web" = false :=
  ⟨by decide, by decide, by decide, by decide, by decide⟩

theorem validate_eq_firstBad (nets : List (String × String)) (exts : List String) :
    validateExternalNetworks nets exts =
      (firstBadExternalNetwork nets exts).map (extNetworkErrMsg nets) := by
  induction exts with
  | nil => rfl
  | cons n rest ih =>
    by_cases hu : isUserDefinedNetwork n = true
    · cases hl : lookupAssoc nets n with
      | none =>
        simp [validateExternalNetworks, firstBadExternalNetwork, badExternalNetwork,
          extNetworkErrMsg, hu, hl]
      | some scope =>
        by_cases hs : scope = "swarm"
        · simp [validateExternalNetworks, firstBadExternalNetwork, badExternalNetwork,
            hu, hl, hs, ih]
        · simp [validateExternalNetworks, firstBadExternalNetwork, badExternalNetwork,
            extNetworkErrMsg, hu, hl, hs]
    · simp [validateExternalNetworks, firstBadExternalNetwork, badExternalNetwork, hu, ih]

theorem firstBad_isSome_of_mem (nets : List (String × String)) (n : String)
    (exts : List String) (hmem : n ∈ exts) (hbad : badExternalNetwork nets n = true) :
    (firstBadExternalNetwork nets exts).isSome = true := by
  induction exts with
  | nil => simp at hmem
  | cons m rest ih =>
    by_cases hm : badExternalNetwork nets m = true
    · simp [firstBadExternalNetwork, hm]
    · have hn : n ∈ rest := by
        rcases List.mem_cons.mp hmem with rfl | h
        · exact absurd hbad hm
        · exact h
      simp [firstBadExternalNetwork, hm, ih hn]

theorem firstBad_is_bad (nets : List (String × String)) (exts : List String) (m : String)
    (h : firstBadExternalNetwork nets exts = some m) :
    badExternalNetwork nets m = true := by
  induction exts with
  | nil => simp [firstBadExternalNetwork] at h
  | cons k rest ih =>
    by_cases hk : badExternalNetwork nets k = true
    · simp [firstBadExternalNetwork, hk] at h
      subst h
      exact hk
    · simp [firstBadExternalNetwork, hk] at h
      exact ih h

theorem pruneServices_events_are_removals (existing : List ExistingService)
    (desired : List String) :
    noCreateEvents (pruneServices existing desired).1 = true := by
  induction existing with
  | nil => rfl
  | cons svc rest ih =>
    by_cases hm : svc.spec.name ∈ desired <;>
      cases hre : svc.removeError <;>
        simp_all [pruneServices, noCreateEvents, isCreateOrUpdateEvent]

/-- C7: when the materializer steps succeed, the node is a manager and the
prune pass (if requested) reports no failure, a declared user-defined
external network that is missing from the cluster or not swarm-scoped makes
`Deploy` abort with the validation error for the first such network — a
message naming that network (and, for a present one, its scope versus the
required `"swarm"`) — and the recorded trace holds no network, secret,
config, or service creation or update (at most prune removals). -/
theorem deploy_aborts_on_bad_external_network
    (cluster : ClusterState) (files : List (String × List Nat)) (store : Secrets)
    (project p1 p2 : ProjectE) (opts : DeployOptions) (n : String)
    (h1 : processLocalConfigs files project = .ok p1)
    (h2 : processSensitiveSecrets store files p1 = .ok p2)
    (hm : cluster.managerAvailable = true)
    (hp : opts.prune = true →
      (pruneServices cluster.services (p2.services.map (·.name))).2 = [])
    (hmem : n ∈ (ConvertNetworks opts.stack p2.networks
      (GetServicesDeclaredNetworks p2.services)).2)
    (hbad : badExternalNetwork cluster.networks n = true) :
    (∀ m, firstBadExternalNetwork cluster.networks
        (ConvertNetworks opts.stack p2.networks (GetServicesDeclaredNetworks p2.services)).2 =
          some m →
      badExternalNetwork cluster.networks m = true ∧
      Deploy cluster files store project opts =
        ((if opts.prune then (pruneServices cluster.services (p2.services.map (·.name))).1 else []),
         some (extNetworkErrMsg cluster.networks m))) ∧
    (Deploy cluster files store project opts).2.isSome = true ∧
    noCreateEvents (Deploy cluster files store project opts).1 = true := by
  have hfbs := firstBad_isSome_of_mem cluster.networks n _ hmem hbad
  obtain ⟨m, hmfb⟩ := Option.isSome_iff_exists.mp hfbs
  have hval : validateExternalNetworks cluster.networks
      (ConvertNetworks opts.stack p2.networks (GetServicesDeclaredNetworks p2.services)).2 =
      some (extNetworkErrMsg cluster.networks m) := by
    rw [validate_eq_firstBad, hmfb]
    rfl
  have hdep : Deploy cluster files store project opts =
      ((if opts.prune then (pruneServices cluster.services (p2.services.map (·.name))).1 else []),
       some (extNetworkErrMsg cluster.networks m)) := by
    cases hop : opts.prune with
    | false =>
      simp only [Deploy, h1, h2, hm, hop, hval, Bool.not_true, Bool.false_and,
        Bool.and_false, if_false, List.isEmpty_nil]
      simp
    | true =>
      have hpe := hp hop
      simp [Deploy, h1, h2, hm, hop, hval, hpe]
  refine ⟨?_, ?_, ?_⟩
  · intro m' hm'
    rw [hmfb] at hm'
    cases hm'
    exact ⟨firstBad_is_bad cluster.networks _ m hmfb, hdep⟩
  · rw [hdep]
    rfl
  · rw [hdep]
    cases hop : opts.prune with
    | false => simp [noCreateEvents]
    | true =>
      simp only [if_pos rfl]
      exact pruneServices_events_are_removals cluster.services (p2.services.map (·.name))

/-- Witness for `deploy_aborts_on_bad_external_network`: declaring external
network `edge` against an empty cluster aborts the deploy with the error
naming `edge`, creating nothing. -/
theorem deploy_aborts_on_bad_external_network_witness :
    Deploy { managerAvailable := true } []
        ⟨[]⟩
        { workingDir := "",
          services := [{ name := "web", image := "app:v1", networks := ["edge"] }],
          networks := [("edge", { external := true })] }
        { stack := "demo" } =
      ([], some (extNetworkErrMsg [] "edge")) ∧
    noCreateEvents
      (Deploy { managerAvailable := true } []
        ⟨[]⟩
        { workingDir := "",
          services := [{ name := "web", image := "app:v1", networks := ["edge"] }],
          networks := [("edge", { external := true })] }
        { stack := "demo" }).1 = true := by
  have h := deploy_aborts_on_bad_external_network
    { managerAvailable := true } [] ⟨[]⟩
    { workingDir := "",
      services := [{ name := "web", image := "app:v1", networks := ["edge"] }],
      networks := [("edge", { external := true })] }
    { workingDir := "",
      services := [{ name := "web", image := "app:v1", networks := ["edge"] }],
      networks := [("edge", { external := true })] }
    { workingDir := "",
      services := [{ name := "web", image := "app:v1", networks := ["edge"] }],
      networks := [("edge", { external := true })] }
    { stack := "demo" } "edge" rfl rfl rfl (by intro h; cases h) (by decide) (by decide)
  exact ⟨((h.1 "edge" (by decide)).2), h.2.2⟩

end Cicdez
